import Mathlib

/-!
Verification model of the ha-secret-service Home Assistant integration
(custom_components/secret_service). The definitions below are a shallow
embedding of src/custom_components/secret_service/__init__.py and const.py:

* ValidateResult mirrors the enum in const.py.
* Python dicts are modelled as association lists with assignment semantics:
  assigning to an existing key replaces that key's single entry, assigning a
  new key adds one entry.
* bcrypt.hashpw(value, salt) is modelled as a deterministic function of the
  pair (value, salt); following the spec, hash collisions between distinct
  inputs under the same salt are treated as never occurring, so the model
  is injective in the value for a fixed salt. bcrypt.gensalt() draws from an
  explicit supply of fresh salts (a counter threaded through construction),
  standing for the random salt stream.
* Methods that could mutate their receiver are embedded in state-passing
  style where a claim is about mutation; validate performs no assignment in
  the source, which the state-passing form makes explicit.
-/

set_option autoImplicit false

namespace SecretService

/-- Model of ValidateResult from const.py: the closed result enumeration. -/
inductive ValidateResult : Type
  | SUCCESS
  | FAILED_INVALID
  | FAILED_ATTEMPTS_EXCEEDED
  | FAILED_RATE_EXCEEDED
  deriving DecidableEq, Repr

/-- Model of a bcrypt salt: an element of the random salt stream. -/
abbrev Salt := Nat

/-- Model of a bcrypt digest: determined by the hashed value and the salt. -/
abbrev Digest := String × Salt

/-- Model of bcrypt.hashpw(value.encode(), salt): deterministic in
(value, salt); injective in value for a fixed salt, since per the spec
collisions under the primitive are treated as never occurring. -/
def hashpw (value : String) (salt : Salt) : Digest := (value, salt)

/-- Model of bcrypt.gensalt(): take the next fresh salt from the supply. -/
def gensalt (g : Nat) : Salt × Nat := (g, g + 1)

/-- Python dict, as an association list with at most one entry per key. -/
abbrev Dict (K V : Type) := List (K × V)

namespace Dict

variable {K V : Type} [DecidableEq K]

/-- Python d[k] lookup / `k in d` membership: the entry for key k, if any. -/
def find? (d : Dict K V) (k : K) : Option V :=
  match d with
  | [] => none
  | (k', v) :: rest => if k' = k then some v else find? rest k

/-- Python d[k] = v assignment: replace the entry for k (if any) and record
the new binding, keeping one entry per key. -/
def insert (d : Dict K V) (k : K) (v : V) : Dict K V :=
  (k, v) :: d.filter (fun p => p.1 ≠ k)

/-- The keys currently bound in the dict. -/
def keys (d : Dict K V) : List K := d.map Prod.fst

theorem find?_nil (k : K) : find? ([] : Dict K V) k = none := rfl

theorem find?_insert_self (d : Dict K V) (k : K) (v : V) :
    (d.insert k v).find? k = some v := by
  simp [insert, find?]

theorem find?_filter_ne (d : Dict K V) (k k' : K) (h : k' ≠ k) :
    Dict.find? (d.filter (fun p => p.1 ≠ k)) k' = d.find? k' := by
  induction d with
  | nil => rfl
  | cons p rest ih =>
    obtain ⟨a, b⟩ := p
    simp only [ne_eq, decide_not] at ih ⊢
    by_cases ha : a = k
    · subst ha
      rw [List.filter_cons_of_neg (by simp)]
      simp [find?, Ne.symm h, ih]
    · rw [List.filter_cons_of_pos (by simp [ha])]
      by_cases hak : a = k' <;> simp [find?, hak, ih]

theorem find?_insert_ne (d : Dict K V) (k k' : K) (v : V) (h : k' ≠ k) :
    (d.insert k v).find? k' = d.find? k' := by
  have hf := find?_filter_ne d k k' h
  simp only [ne_eq, decide_not] at hf
  simp [insert, find?, Ne.symm h, hf]

theorem find?_eq_none_of_not_mem_keys (d : Dict K V) (k : K)
    (h : k ∉ d.keys) : d.find? k = none := by
  induction d with
  | nil => rfl
  | cons p rest ih =>
    obtain ⟨a, b⟩ := p
    simp only [keys, List.map_cons, List.mem_cons, not_or] at h
    simp [find?, Ne.symm h.1, ih (by simpa [keys] using h.2)]

theorem keys_ne_of_find?_eq_none (d : Dict K V) (k : K)
    (h : d.find? k = none) : ∀ p ∈ d, p.1 ≠ k := by
  induction d with
  | nil =>
    intro p hp
    simp at hp
  | cons q rest ih =>
    obtain ⟨a, b⟩ := q
    simp only [find?] at h
    by_cases ha : a = k
    · simp [ha] at h
    · intro p hp
      rcases List.mem_cons.mp hp with h1 | h2
      · subst h1
        exact ha
      · exact ih (by simpa [ha] using h) p h2

theorem filter_ne_eq_self (k : K) (l : List (K × V))
    (h : ∀ p ∈ l, p.1 ≠ k) : l.filter (fun p => p.1 ≠ k) = l := by
  simp only [List.filter_eq_self]
  intro a hab
  exact decide_eq_true (h a hab)

theorem length_insert_of_find?_eq_none (d : Dict K V) (k : K) (v : V)
    (h : d.find? k = none) : (d.insert k v).length = d.length + 1 := by
  have hall := keys_ne_of_find?_eq_none d k h
  show ((k, v) :: d.filter (fun p => p.1 ≠ k)).length = d.length + 1
  rw [filter_ne_eq_self k d hall]
  rfl

end Dict

/-- An individual secret entry of the configuration: keys "secret", "value". -/
structure SecretConfig where
  secret : String
  value : String
  deriving DecidableEq, Repr

/-- A group entry of the configuration: keys "group", "secrets". -/
structure GroupConfig where
  group : String
  secrets : List SecretConfig
  deriving DecidableEq, Repr

/-- The service configuration: optional "secrets" and "groups" lists; an
absent list behaves as the empty list (the source skips a falsy value, and
iterating an empty list is the same no-op). -/
structure ServiceConfig where
  secrets : List SecretConfig
  groups : List GroupConfig
  deriving DecidableEq, Repr

/-- Model of the SecretValidator class state: name, salt, hashed secret. -/
structure SecretValidator where
  name : String
  salt : Salt
  hashed_secret : Digest
  deriving DecidableEq, Repr

/-- SecretValidator.__init__: generate a salt, hash the configured value. -/
def SecretValidator.init (secret_config : SecretConfig) (g : Nat) :
    SecretValidator × Nat :=
  let p := gensalt g
  ({ name := secret_config.secret
     salt := p.1
     hashed_secret := hashpw secret_config.value p.1 }, p.2)

/-- SecretValidator.validate: hash the candidate under the stored salt and
compare with the stored hash. -/
def SecretValidator.validate (sv : SecretValidator) (value : String) :
    ValidateResult :=
  if sv.hashed_secret = hashpw value sv.salt then
    ValidateResult.SUCCESS
  else
    ValidateResult.FAILED_INVALID

theorem SecretValidator.init_validate_eq (sc : SecretConfig) (g : Nat)
    (u : String) :
    (SecretValidator.init sc g).1.validate u =
      if sc.value = u then ValidateResult.SUCCESS
      else ValidateResult.FAILED_INVALID := by
  by_cases h : sc.value = u <;>
    simp [SecretValidator.init, SecretValidator.validate, gensalt, hashpw, h]

/-- Model of the SecretGroupValidator class state: name, shared salt, and
the lookup mapping from member-value digest to member validator. -/
structure SecretGroupValidator where
  name : String
  salt : Salt
  validators : Dict Digest SecretValidator
  deriving DecidableEq, Repr

/-- The member-loading loop of SecretGroupValidator.__init__: for each
member, key the member's validator by the member value hashed under the
shared group salt. -/
def SecretGroupValidator.loadSecrets (salt : Salt)
    (validators : Dict Digest SecretValidator) (g : Nat) :
    List SecretConfig → Dict Digest SecretValidator × Nat
  | [] => (validators, g)
  | secret_config :: rest =>
    let key := hashpw secret_config.value salt
    let p := SecretValidator.init secret_config g
    SecretGroupValidator.loadSecrets salt (validators.insert key p.1) p.2 rest

/-- SecretGroupValidator.__init__: generate the shared group salt, then run
the member-loading loop over the configured members. -/
def SecretGroupValidator.init (group_config : GroupConfig) (g : Nat) :
    SecretGroupValidator × Nat :=
  let p := gensalt g
  let q := SecretGroupValidator.loadSecrets p.1 [] p.2 group_config.secrets
  ({ name := group_config.group
     salt := p.1
     validators := q.1 }, q.2)

/-- SecretGroupValidator.validate: hash the candidate under the group salt;
if a member validator is keyed by that digest, delegate to it, else fail. -/
def SecretGroupValidator.validate (gv : SecretGroupValidator)
    (value : String) : ValidateResult :=
  match gv.validators.find? (hashpw value gv.salt) with
  | some sv => sv.validate value
  | none => ValidateResult.FAILED_INVALID

/-- Model of the SecretValidatorService class state: the two maps. -/
structure SecretValidatorService where
  group_validators : Dict String SecretGroupValidator
  individual_validators : Dict String SecretValidator
  deriving DecidableEq, Repr

/-- The group-loading loop of SecretValidatorService._load_config. -/
def SecretValidatorService.loadGroups :
    Dict String SecretGroupValidator → Nat → List GroupConfig →
      Dict String SecretGroupValidator × Nat
  | d, g, [] => (d, g)
  | d, g, group_config :: rest =>
    let p := SecretGroupValidator.init group_config g
    SecretValidatorService.loadGroups (d.insert group_config.group p.1) p.2 rest

/-- The secret-loading loop of SecretValidatorService._load_config. -/
def SecretValidatorService.loadSecrets :
    Dict String SecretValidator → Nat → List SecretConfig →
      Dict String SecretValidator × Nat
  | d, g, [] => (d, g)
  | d, g, secret_config :: rest =>
    let p := SecretValidator.init secret_config g
    SecretValidatorService.loadSecrets (d.insert secret_config.secret p.1) p.2 rest

/-- SecretValidatorService._load_config: add the configured groups to the
group map, then the configured individual secrets to the individual map. -/
def SecretValidatorService.loadConfig (s : SecretValidatorService)
    (service_config : ServiceConfig) (g : Nat) :
    SecretValidatorService × Nat :=
  let p := SecretValidatorService.loadGroups s.group_validators g
    service_config.groups
  let q := SecretValidatorService.loadSecrets s.individual_validators p.2
    service_config.secrets
  ({ group_validators := p.1, individual_validators := q.1 }, q.2)

/-- SecretValidatorService.__init__: start from two empty maps, then load
the configuration. -/
def SecretValidatorService.init (service_config : ServiceConfig) (g : Nat) :
    SecretValidatorService × Nat :=
  SecretValidatorService.loadConfig
    { group_validators := [], individual_validators := [] } service_config g

/-- SecretValidatorService.reload: clear both maps, then load the given
configuration exactly as construction does. -/
def SecretValidatorService.reload (s : SecretValidatorService)
    (service_config : ServiceConfig) (g : Nat) :
    SecretValidatorService × Nat :=
  SecretValidatorService.loadConfig
    { s with group_validators := [], individual_validators := [] }
    service_config g

/-- SecretValidatorService.validate: try the individual map first, then the
group map, else FAILED_INVALID. -/
def SecretValidatorService.validate (s : SecretValidatorService)
    (name value : String) : ValidateResult :=
  match s.individual_validators.find? name with
  | some sv => sv.validate value
  | none =>
    match s.group_validators.find? name with
    | some gv => gv.validate value
    | none => ValidateResult.FAILED_INVALID

/-- State-passing form of SecretValidatorService.validate: a Python method
may mutate its receiver, so the embedding returns the post-call state next
to the result; the method body only reads the maps and assigns no field,
so the post-call state is the receiver unchanged. -/
def SecretValidatorService.validateFull (s : SecretValidatorService)
    (name value : String) : ValidateResult × SecretValidatorService :=
  let result : ValidateResult :=
    match s.individual_validators.find? name with
    | some sv => sv.validate value
    | none =>
      match s.group_validators.find? name with
      | some gv => gv.validate value
      | none => ValidateResult.FAILED_INVALID
  (result, s)

/-- The service response of check_secret: a dict with single key result
whose value is either the full ValidateResult or a boolean. -/
inductive CheckSecretResponse : Type
  | full (result : ValidateResult)
  | flag (result : Bool)
  deriving DecidableEq, Repr

/-- Model of the check_secret handler (async_handle_check_secret): read
name, value and the optional full_response flag (absent means False),
validate, and shape the response. -/
def async_handle_check_secret (s : SecretValidatorService)
    (name value : String) (full_response : Option Bool) :
    CheckSecretResponse :=
  let use_full_response := full_response.getD false
  let result := s.validate name value
  if use_full_response then
    CheckSecretResponse.full result
  else
    CheckSecretResponse.flag (result = ValidateResult.SUCCESS)

/-- Model of the reload handler (async_handle_reload_entry): when the
freshly parsed YAML configuration is missing or lacks the integration's
domain key (modelled as none), raise ValueError before touching the
service; otherwise reload the service from it. -/
def async_handle_reload_entry (s : SecretValidatorService)
    (new_config : Option ServiceConfig) (g : Nat) :
    Except String (SecretValidatorService × Nat) :=
  match new_config with
  | none => Except.error "A valid config could not be found"
  | some cfg => Except.ok (s.reload cfg g)

/-! Lemmas about the member-loading loop of SecretGroupValidator. -/

theorem SecretGroupValidator.loadSecrets_find?_not_mem_value (salt : Salt) :
    ∀ (l : List SecretConfig) (d : Dict Digest SecretValidator) (g : Nat)
      (u : String), u ∉ l.map SecretConfig.value →
      ((SecretGroupValidator.loadSecrets salt d g l).1).find? (hashpw u salt) =
        d.find? (hashpw u salt)
  | [], _, _, _, _ => rfl
  | sc :: rest, d, g, u, h => by
    have h1 : u ≠ sc.value := by
      simp only [List.map_cons, List.mem_cons, not_or] at h
      exact h.1
    have h2 : u ∉ rest.map SecretConfig.value := by
      simp only [List.map_cons, List.mem_cons, not_or] at h
      exact h.2
    show ((SecretGroupValidator.loadSecrets salt
        (d.insert (hashpw sc.value salt) (SecretValidator.init sc g).1)
        (SecretValidator.init sc g).2 rest).1).find? (hashpw u salt) =
      d.find? (hashpw u salt)
    rw [SecretGroupValidator.loadSecrets_find?_not_mem_value salt rest _ _ u h2]
    exact Dict.find?_insert_ne d _ _ _ (by simp [hashpw, h1])

theorem SecretGroupValidator.loadSecrets_find?_mem (salt : Salt) :
    ∀ (l : List SecretConfig) (d : Dict Digest SecretValidator) (g : Nat)
      (u : String), u ∈ l.map SecretConfig.value →
      ∃ sv, ((SecretGroupValidator.loadSecrets salt d g l).1).find?
          (hashpw u salt) = some sv ∧
        sv.hashed_secret = hashpw u sv.salt
  | [], _, _, _, h => by simp at h
  | sc :: rest, d, g, u, h => by
    show ∃ sv, ((SecretGroupValidator.loadSecrets salt
        (d.insert (hashpw sc.value salt) (SecretValidator.init sc g).1)
        (SecretValidator.init sc g).2 rest).1).find? (hashpw u salt) =
        some sv ∧ sv.hashed_secret = hashpw u sv.salt
    by_cases hrest : u ∈ rest.map SecretConfig.value
    · exact SecretGroupValidator.loadSecrets_find?_mem salt rest _ _ u hrest
    · have hu : u = sc.value := by
        simp only [List.map_cons, List.mem_cons] at h
        rcases h with h | h
        · exact h
        · exact absurd h hrest
      refine ⟨(SecretValidator.init sc g).1, ?_, ?_⟩
      · rw [SecretGroupValidator.loadSecrets_find?_not_mem_value salt rest _ _ u hrest]
        rw [hu]
        exact Dict.find?_insert_self _ _ _
      · simp [SecretValidator.init, gensalt, hashpw, hu]

theorem SecretGroupValidator.loadSecrets_length (salt : Salt) :
    ∀ (l : List SecretConfig) (d : Dict Digest SecretValidator) (g : Nat),
      (l.map SecretConfig.value).Nodup →
      (∀ sc ∈ l, d.find? (hashpw sc.value salt) = none) →
      ((SecretGroupValidator.loadSecrets salt d g l).1).length =
        d.length + l.length
  | [], _, _, _, _ => rfl
  | sc :: rest, d, g, hnd, habs => by
    have hnd1 : sc.value ∉ rest.map SecretConfig.value :=
      (List.nodup_cons.mp (by simpa using hnd)).1
    have hnd2 : (rest.map SecretConfig.value).Nodup :=
      (List.nodup_cons.mp (by simpa using hnd)).2
    have hd0 : d.find? (hashpw sc.value salt) = none :=
      habs sc (List.mem_cons_self sc rest)
    show ((SecretGroupValidator.loadSecrets salt
        (d.insert (hashpw sc.value salt) (SecretValidator.init sc g).1)
        (SecretValidator.init sc g).2 rest).1).length =
      d.length + (sc :: rest).length
    rw [SecretGroupValidator.loadSecrets_length salt rest _ _ hnd2 ?_]
    · rw [Dict.length_insert_of_find?_eq_none d _ _ hd0]
      simp only [List.length_cons]
      omega
    · intro sc' hsc'
      have hne : sc'.value ≠ sc.value := by
        intro he
        exact hnd1 (he ▸ List.mem_map_of_mem SecretConfig.value hsc')
      rw [Dict.find?_insert_ne d _ _ _ (by simp [hashpw, hne])]
      exact habs sc' (List.mem_cons_of_mem sc hsc')

/-- Behaviour of a freshly constructed group validator: a candidate is
accepted exactly when it equals some configured member value. -/
theorem SecretGroupValidator.group_init_validate_eq (gc : GroupConfig) (g : Nat)
    (u : String) :
    (SecretGroupValidator.init gc g).1.validate u =
      if u ∈ gc.secrets.map SecretConfig.value then ValidateResult.SUCCESS
      else ValidateResult.FAILED_INVALID := by
  by_cases hu : u ∈ gc.secrets.map SecretConfig.value
  · obtain ⟨sv, hfind, hh⟩ :=
      SecretGroupValidator.loadSecrets_find?_mem g gc.secrets [] (g + 1) u hu
    simp only [SecretGroupValidator.init, SecretGroupValidator.validate,
      gensalt, hu, if_true]
    rw [hfind]
    simp [SecretValidator.validate, hh]
  · have hnone :=
      SecretGroupValidator.loadSecrets_find?_not_mem_value g gc.secrets [] (g + 1) u hu
    simp only [SecretGroupValidator.init, SecretGroupValidator.validate,
      gensalt, hu, if_false]
    rw [hnone]
    rfl

/-! Lemmas about the two loading loops of SecretValidatorService. -/

theorem SecretValidatorService.loadSecrets_find?_not_mem :
    ∀ (l : List SecretConfig) (d : Dict String SecretValidator) (g : Nat)
      (n : String), n ∉ l.map SecretConfig.secret →
      ((SecretValidatorService.loadSecrets d g l).1).find? n = d.find? n
  | [], _, _, _, _ => rfl
  | sc :: rest, d, g, n, h => by
    have h1 : n ≠ sc.secret := by
      simp only [List.map_cons, List.mem_cons, not_or] at h
      exact h.1
    have h2 : n ∉ rest.map SecretConfig.secret := by
      simp only [List.map_cons, List.mem_cons, not_or] at h
      exact h.2
    show ((SecretValidatorService.loadSecrets
        (d.insert sc.secret (SecretValidator.init sc g).1)
        (SecretValidator.init sc g).2 rest).1).find? n = d.find? n
    rw [SecretValidatorService.loadSecrets_find?_not_mem rest _ _ n h2]
    exact Dict.find?_insert_ne d _ _ _ h1

theorem SecretValidatorService.loadSecrets_append :
    ∀ (l1 l2 : List SecretConfig) (d : Dict String SecretValidator) (g : Nat),
      SecretValidatorService.loadSecrets d g (l1 ++ l2) =
        SecretValidatorService.loadSecrets
          (SecretValidatorService.loadSecrets d g l1).1
          (SecretValidatorService.loadSecrets d g l1).2 l2
  | [], _, _, _ => rfl
  | sc :: rest, l2, d, g => by
    show SecretValidatorService.loadSecrets
        (d.insert sc.secret (SecretValidator.init sc g).1)
        (SecretValidator.init sc g).2 (rest ++ l2) = _
    rw [SecretValidatorService.loadSecrets_append rest l2 _ _]
    rfl

/-- Last occurrence wins in the individual map: looking up the name of a
configured secret that has no later occurrence yields the validator built
from exactly that configuration entry. -/
theorem SecretValidatorService.loadSecrets_find?_last
    (l1 r : List SecretConfig) (sc : SecretConfig)
    (d : Dict String SecretValidator) (g : Nat)
    (hr : sc.secret ∉ r.map SecretConfig.secret) :
    ((SecretValidatorService.loadSecrets d g (l1 ++ sc :: r)).1).find?
        sc.secret =
      some (SecretValidator.init sc
        (SecretValidatorService.loadSecrets d g l1).2).1 := by
  rw [SecretValidatorService.loadSecrets_append l1 (sc :: r) d g]
  show ((SecretValidatorService.loadSecrets
      ((SecretValidatorService.loadSecrets d g l1).1.insert sc.secret
        (SecretValidator.init sc
          (SecretValidatorService.loadSecrets d g l1).2).1)
      (SecretValidator.init sc
        (SecretValidatorService.loadSecrets d g l1).2).2 r).1).find?
      sc.secret = _
  rw [SecretValidatorService.loadSecrets_find?_not_mem r _ _ sc.secret hr]
  exact Dict.find?_insert_self _ _ _

theorem SecretValidatorService.loadGroups_find?_not_mem :
    ∀ (l : List GroupConfig) (d : Dict String SecretGroupValidator) (g : Nat)
      (n : String), n ∉ l.map GroupConfig.group →
      ((SecretValidatorService.loadGroups d g l).1).find? n = d.find? n
  | [], _, _, _, _ => rfl
  | gc :: rest, d, g, n, h => by
    have h1 : n ≠ gc.group := by
      simp only [List.map_cons, List.mem_cons, not_or] at h
      exact h.1
    have h2 : n ∉ rest.map GroupConfig.group := by
      simp only [List.map_cons, List.mem_cons, not_or] at h
      exact h.2
    show ((SecretValidatorService.loadGroups
        (d.insert gc.group (SecretGroupValidator.init gc g).1)
        (SecretGroupValidator.init gc g).2 rest).1).find? n = d.find? n
    rw [SecretValidatorService.loadGroups_find?_not_mem rest _ _ n h2]
    exact Dict.find?_insert_ne d _ _ _ h1

theorem SecretValidatorService.loadGroups_append :
    ∀ (l1 l2 : List GroupConfig) (d : Dict String SecretGroupValidator)
      (g : Nat),
      SecretValidatorService.loadGroups d g (l1 ++ l2) =
        SecretValidatorService.loadGroups
          (SecretValidatorService.loadGroups d g l1).1
          (SecretValidatorService.loadGroups d g l1).2 l2
  | [], _, _, _ => rfl
  | gc :: rest, l2, d, g => by
    show SecretValidatorService.loadGroups
        (d.insert gc.group (SecretGroupValidator.init gc g).1)
        (SecretGroupValidator.init gc g).2 (rest ++ l2) = _
    rw [SecretValidatorService.loadGroups_append rest l2 _ _]
    rfl

/-- Last occurrence wins in the group map. -/
theorem SecretValidatorService.loadGroups_find?_last
    (l1 r : List GroupConfig) (gc : GroupConfig)
    (d : Dict String SecretGroupValidator) (g : Nat)
    (hr : gc.group ∉ r.map GroupConfig.group) :
    ((SecretValidatorService.loadGroups d g (l1 ++ gc :: r)).1).find?
        gc.group =
      some (SecretGroupValidator.init gc
        (SecretValidatorService.loadGroups d g l1).2).1 := by
  rw [SecretValidatorService.loadGroups_append l1 (gc :: r) d g]
  show ((SecretValidatorService.loadGroups
      ((SecretValidatorService.loadGroups d g l1).1.insert gc.group
        (SecretGroupValidator.init gc
          (SecretValidatorService.loadGroups d g l1).2).1)
      (SecretGroupValidator.init gc
        (SecretValidatorService.loadGroups d g l1).2).2 r).1).find?
      gc.group = _
  rw [SecretValidatorService.loadGroups_find?_not_mem r _ _ gc.group hr]
  exact Dict.find?_insert_self _ _ _

/-! Characterization of a freshly constructed service. -/

theorem SecretValidatorService.init_group_validators (cfg : ServiceConfig)
    (g : Nat) :
    (SecretValidatorService.init cfg g).1.group_validators =
      (SecretValidatorService.loadGroups [] g cfg.groups).1 := rfl

theorem SecretValidatorService.init_individual_validators
    (cfg : ServiceConfig) (g : Nat) :
    (SecretValidatorService.init cfg g).1.individual_validators =
      (SecretValidatorService.loadSecrets []
        (SecretValidatorService.loadGroups [] g cfg.groups).2
        cfg.secrets).1 := rfl

/-- A name configured neither as an individual secret nor as a group is
unknown to the constructed service: validation fails as invalid. -/
theorem SecretValidatorService.validate_init_not_mem (cfg : ServiceConfig)
    (g : Nat) (n v : String)
    (hs : n ∉ cfg.secrets.map SecretConfig.secret)
    (hg : n ∉ cfg.groups.map GroupConfig.group) :
    (SecretValidatorService.init cfg g).1.validate n v =
      ValidateResult.FAILED_INVALID := by
  have hi : (SecretValidatorService.init cfg g).1.individual_validators.find?
      n = none := by
    rw [SecretValidatorService.init_individual_validators]
    rw [SecretValidatorService.loadSecrets_find?_not_mem cfg.secrets _ _ n hs]
    rfl
  have hgn : (SecretValidatorService.init cfg g).1.group_validators.find?
      n = none := by
    rw [SecretValidatorService.init_group_validators]
    rw [SecretValidatorService.loadGroups_find?_not_mem cfg.groups _ _ n hg]
    rfl
  simp [SecretValidatorService.validate, hi, hgn]

/-- Validation at the name of a configured individual secret that has no
later occurrence of the same name: the candidate is accepted exactly when
it equals that entry's configured value. -/
theorem SecretValidatorService.validate_init_secret_last (cfg : ServiceConfig)
    (g : Nat) (l1 r : List SecretConfig) (sc : SecretConfig)
    (hcfg : cfg.secrets = l1 ++ sc :: r)
    (hr : sc.secret ∉ r.map SecretConfig.secret) (u : String) :
    (SecretValidatorService.init cfg g).1.validate sc.secret u =
      if sc.value = u then ValidateResult.SUCCESS
      else ValidateResult.FAILED_INVALID := by
  have hi : (SecretValidatorService.init cfg g).1.individual_validators.find?
      sc.secret = some (SecretValidator.init sc
        (SecretValidatorService.loadSecrets []
          (SecretValidatorService.loadGroups [] g cfg.groups).2 l1).2).1 := by
    rw [SecretValidatorService.init_individual_validators, hcfg]
    exact SecretValidatorService.loadSecrets_find?_last l1 r sc _ _ hr
  simp [SecretValidatorService.validate, hi, SecretValidator.init_validate_eq]

/-- Validation at the name of a configured individual secret, when the
individual names are pairwise distinct. -/
theorem SecretValidatorService.validate_init_secret_mem (cfg : ServiceConfig)
    (g : Nat) (sc : SecretConfig) (hmem : sc ∈ cfg.secrets)
    (hnd : (cfg.secrets.map SecretConfig.secret).Nodup) (u : String) :
    (SecretValidatorService.init cfg g).1.validate sc.secret u =
      if sc.value = u then ValidateResult.SUCCESS
      else ValidateResult.FAILED_INVALID := by
  obtain ⟨l1, r, hcfg⟩ := List.append_of_mem hmem
  have hr : sc.secret ∉ r.map SecretConfig.secret := by
    rw [hcfg, List.map_append, List.map_cons] at hnd
    exact (List.nodup_cons.mp hnd.of_append_right).1
  exact SecretValidatorService.validate_init_secret_last cfg g l1 r sc hcfg
    hr u

/-- Validation at the name of a configured group that has no later group of
the same name and is not shadowed by an individual secret: the candidate is
accepted exactly when it equals some member value of that group entry. -/
theorem SecretValidatorService.validate_init_group_last (cfg : ServiceConfig)
    (g : Nat) (l1 r : List GroupConfig) (gc : GroupConfig)
    (hcfg : cfg.groups = l1 ++ gc :: r)
    (hr : gc.group ∉ r.map GroupConfig.group)
    (hs : gc.group ∉ cfg.secrets.map SecretConfig.secret) (u : String) :
    (SecretValidatorService.init cfg g).1.validate gc.group u =
      if u ∈ gc.secrets.map SecretConfig.value then ValidateResult.SUCCESS
      else ValidateResult.FAILED_INVALID := by
  have hi : (SecretValidatorService.init cfg g).1.individual_validators.find?
      gc.group = none := by
    rw [SecretValidatorService.init_individual_validators]
    rw [SecretValidatorService.loadSecrets_find?_not_mem cfg.secrets _ _
      gc.group hs]
    rfl
  have hg : (SecretValidatorService.init cfg g).1.group_validators.find?
      gc.group = some (SecretGroupValidator.init gc
        (SecretValidatorService.loadGroups [] g l1).2).1 := by
    rw [SecretValidatorService.init_group_validators, hcfg]
    exact SecretValidatorService.loadGroups_find?_last l1 r gc _ _ hr
  simp [SecretValidatorService.validate, hi, hg,
    SecretGroupValidator.group_init_validate_eq]

/-- Validation at the name of a configured group, when the group names are
pairwise distinct and the group's name is not an individual secret name. -/
theorem SecretValidatorService.validate_init_group_mem (cfg : ServiceConfig)
    (g : Nat) (gc : GroupConfig) (hmem : gc ∈ cfg.groups)
    (hnd : (cfg.groups.map GroupConfig.group).Nodup)
    (hs : gc.group ∉ cfg.secrets.map SecretConfig.secret) (u : String) :
    (SecretValidatorService.init cfg g).1.validate gc.group u =
      if u ∈ gc.secrets.map SecretConfig.value then ValidateResult.SUCCESS
      else ValidateResult.FAILED_INVALID := by
  obtain ⟨l1, r, hcfg⟩ := List.append_of_mem hmem
  have hr : gc.group ∉ r.map GroupConfig.group := by
    rw [hcfg, List.map_append, List.map_cons] at hnd
    exact (List.nodup_cons.mp hnd.of_append_right).1
  exact SecretValidatorService.validate_init_group_last cfg g l1 r gc hcfg
    hr hs u

/-- Appending a character to a string changes it. -/
theorem append_x_ne (s : String) : s ++ "x" ≠ s := by
  intro h
  have hlen := congrArg String.length h
  rw [String.length_append, show ("x" : String).length = 1 from rfl] at hlen
  omega

/-- C1: for every configured individual secret (name, value) (individual
names pairwise distinct, as the data model requires of names within a
scope), validate(name, value) returns SUCCESS and validate(name,
value ++ "x") returns FAILED_INVALID; for every configured group (group
names pairwise distinct and the group's name not claimed by an individual
secret, which would take dispatch precedence), every member value
validates to SUCCESS and a candidate differing from every member value
does not validate to SUCCESS. -/
theorem c1_configured_values_validate (cfg : ServiceConfig) (g : Nat)
    (hnds : (cfg.secrets.map SecretConfig.secret).Nodup)
    (hndg : (cfg.groups.map GroupConfig.group).Nodup) :
    (∀ sc ∈ cfg.secrets,
      (SecretValidatorService.init cfg g).1.validate sc.secret sc.value =
        ValidateResult.SUCCESS ∧
      (SecretValidatorService.init cfg g).1.validate sc.secret
        (sc.value ++ "x") = ValidateResult.FAILED_INVALID) ∧
    (∀ gc ∈ cfg.groups, gc.group ∉ cfg.secrets.map SecretConfig.secret →
      (∀ sc ∈ gc.secrets,
        (SecretValidatorService.init cfg g).1.validate gc.group sc.value =
          ValidateResult.SUCCESS) ∧
      (∀ u, u ∉ gc.secrets.map SecretConfig.value →
        (SecretValidatorService.init cfg g).1.validate gc.group u ≠
          ValidateResult.SUCCESS)) := by
  constructor
  · intro sc hsc
    constructor
    · rw [SecretValidatorService.validate_init_secret_mem cfg g sc hsc hnds]
      simp
    · rw [SecretValidatorService.validate_init_secret_mem cfg g sc hsc hnds]
      rw [if_neg (fun h => append_x_ne sc.value h.symm)]
  · intro gc hgc hshadow
    constructor
    · intro sc hsc
      rw [SecretValidatorService.validate_init_group_mem cfg g gc hgc hndg
        hshadow]
      rw [if_pos (List.mem_map_of_mem SecretConfig.value hsc)]
    · intro u hu
      rw [SecretValidatorService.validate_init_group_mem cfg g gc hgc hndg
        hshadow]
      rw [if_neg hu]
      simp

/-- Witness for C1 at the spec's concrete scenarios: one individual secret
(wifi, abc123) and one group doors with members 111 and 222. -/
theorem c1_configured_values_validate_witness :
    (SecretValidatorService.init
      { secrets := [{ secret := "wifi", value := "abc123" }]
        groups := [{ group := "doors"
                     secrets := [{ secret := "front", value := "111" },
                                 { secret := "back", value := "222" }] }] }
      0).1.validate "wifi" "abc123" = ValidateResult.SUCCESS ∧
    (SecretValidatorService.init
      { secrets := [{ secret := "wifi", value := "abc123" }]
        groups := [{ group := "doors"
                     secrets := [{ secret := "front", value := "111" },
                                 { secret := "back", value := "222" }] }] }
      0).1.validate "wifi" ("abc123" ++ "x") = ValidateResult.FAILED_INVALID ∧
    (SecretValidatorService.init
      { secrets := [{ secret := "wifi", value := "abc123" }]
        groups := [{ group := "doors"
                     secrets := [{ secret := "front", value := "111" },
                                 { secret := "back", value := "222" }] }] }
      0).1.validate "doors" "111" = ValidateResult.SUCCESS ∧
    (SecretValidatorService.init
      { secrets := [{ secret := "wifi", value := "abc123" }]
        groups := [{ group := "doors"
                     secrets := [{ secret := "front", value := "111" },
                                 { secret := "back", value := "222" }] }] }
      0).1.validate "doors" "333" ≠ ValidateResult.SUCCESS := by
  have h := c1_configured_values_validate
    { secrets := [{ secret := "wifi", value := "abc123" }]
      groups := [{ group := "doors"
                   secrets := [{ secret := "front", value := "111" },
                               { secret := "back", value := "222" }] }] }
    0 (by simp) (by simp)
  have h1 := h.1 { secret := "wifi", value := "abc123" } (by simp)
  have h2 := h.2 { group := "doors"
                   secrets := [{ secret := "front", value := "111" },
                               { secret := "back", value := "222" }] }
    (by simp) (by simp)
  exact ⟨h1.1, h1.2, h2.1 { secret := "front", value := "111" } (by simp),
    h2.2 "333" (by simp)⟩

/-- Follows the spec's words (section 4.4): the dispatch description of
validate, used for the refinement statement of C2: if the name is a key of
the individual-secret map delegate to that validator, else if it is a key
of the group map delegate to that group validator, else FAILED_INVALID. -/
def validateSpec (s : SecretValidatorService) (name value : String) :
    ValidateResult :=
  if h1 : (s.individual_validators.find? name).isSome then
    (Option.get _ h1).validate value
  else if h2 : (s.group_validators.find? name).isSome then
    (Option.get _ h2).validate value
  else
    ValidateResult.FAILED_INVALID

/-- C2: the registry's validate realizes the spec's dispatch order, and in
particular when a group and an individual secret share a name the
individual validator is the one consulted. -/
theorem c2_dispatch_order (s : SecretValidatorService) (n v : String) :
    s.validate n v = validateSpec s n v ∧
    (∀ iv gv, s.individual_validators.find? n = some iv →
      s.group_validators.find? n = some gv →
      s.validate n v = iv.validate v) := by
  constructor
  · cases hind : s.individual_validators.find? n with
    | some iv => simp [SecretValidatorService.validate, validateSpec, hind]
    | none =>
      cases hgrp : s.group_validators.find? n with
      | some gv =>
        simp [SecretValidatorService.validate, validateSpec, hind, hgrp]
      | none =>
        simp [SecretValidatorService.validate, validateSpec, hind, hgrp]
  · intro iv gv hind hgrp
    simp [SecretValidatorService.validate, hind]

/-- Witness for C2 on a service in which the name n is bound both as an
individual secret and as a group: the individual validator decides. -/
theorem c2_dispatch_order_witness :
    SecretValidatorService.validate
      { group_validators :=
          [("n", { name := "n", salt := 1, validators := [] })]
        individual_validators :=
          [("n", { name := "n", salt := 0, hashed_secret := ("v", 0) })] }
      "n" "v" =
      validateSpec
        { group_validators :=
            [("n", { name := "n", salt := 1, validators := [] })]
          individual_validators :=
            [("n", { name := "n", salt := 0, hashed_secret := ("v", 0) })] }
        "n" "v" ∧
    SecretValidatorService.validate
      { group_validators :=
          [("n", { name := "n", salt := 1, validators := [] })]
        individual_validators :=
          [("n", { name := "n", salt := 0, hashed_secret := ("v", 0) })] }
      "n" "v" =
      SecretValidator.validate
        { name := "n", salt := 0, hashed_secret := ("v", 0) } "v" := by
  have h := c2_dispatch_order
    { group_validators :=
        [("n", { name := "n", salt := 1, validators := [] })]
      individual_validators :=
        [("n", { name := "n", salt := 0, hashed_secret := ("v", 0) })] }
    "n" "v"
  exact ⟨h.1, h.2 { name := "n", salt := 0, hashed_secret := ("v", 0) }
    { name := "n", salt := 1, validators := [] }
    (by simp [Dict.find?]) (by simp [Dict.find?])⟩

/-- C3: a name that is a key of neither map validates as FAILED_INVALID for
every value, and this is the very same result an individual validator's
rejection of a wrong value produces, so the caller cannot tell an unknown
name from a wrong value. -/
theorem c3_unknown_name_indistinguishable (s : SecretValidatorService)
    (n v : String) (hs : n ∉ s.individual_validators.keys)
    (hg : n ∉ s.group_validators.keys) :
    s.validate n v = ValidateResult.FAILED_INVALID ∧
    (∀ (m u : String) (sv : SecretValidator),
      s.individual_validators.find? m = some sv →
      sv.validate u = ValidateResult.FAILED_INVALID →
      s.validate n v = s.validate m u) := by
  have h1 := Dict.find?_eq_none_of_not_mem_keys s.individual_validators n hs
  have h2 := Dict.find?_eq_none_of_not_mem_keys s.group_validators n hg
  constructor
  · simp [SecretValidatorService.validate, h1, h2]
  · intro m u sv hf hv
    simp [SecretValidatorService.validate, h1, h2, hf, hv]

/-- Witness for C3: a service knowing only the secret a; the unknown name b
and a wrong value for a give the same FAILED_INVALID result. -/
theorem c3_unknown_name_indistinguishable_witness :
    SecretValidatorService.validate
      { group_validators := []
        individual_validators :=
          [("a", { name := "a", salt := 0, hashed_secret := ("w", 0) })] }
      "b" "q" = ValidateResult.FAILED_INVALID ∧
    SecretValidatorService.validate
      { group_validators := []
        individual_validators :=
          [("a", { name := "a", salt := 0, hashed_secret := ("w", 0) })] }
      "b" "q" =
      SecretValidatorService.validate
        { group_validators := []
          individual_validators :=
            [("a", { name := "a", salt := 0, hashed_secret := ("w", 0) })] }
        "a" "z" := by
  have h := c3_unknown_name_indistinguishable
    { group_validators := []
      individual_validators :=
        [("a", { name := "a", salt := 0, hashed_secret := ("w", 0) })] }
    "b" "q" (by simp [Dict.keys]) (by simp [Dict.keys])
  exact ⟨h.1, h.2 "a" "z" { name := "a", salt := 0, hashed_secret := ("w", 0) }
    (by simp [Dict.find?]) (by decide)⟩

/-- Counterexample to C4 as stated: a group whose two members share the
value 111 produces a lookup mapping with a single entry, not one entry per
configured member — the later member's entry overwrites the earlier one. -/
theorem c4_counterexample_duplicate_value :
    ((SecretGroupValidator.init
      { group := "doors"
        secrets := [{ secret := "front", value := "111" },
                    { secret := "back", value := "111" }] }
      0).1.validators).length = 1 ∧
    ([{ secret := "front", value := "111" },
      { secret := "back", value := "111" }] : List SecretConfig).length = 2 := by
  constructor
  · decide
  · decide

/-- C4 as amended: the lookup mapping has exactly one entry per configured
member secret provided the member values are pairwise distinct; a repeated
member value makes the later member overwrite the earlier entry. -/
theorem c4_amended_one_entry_per_member (gc : GroupConfig) (g : Nat)
    (hnd : (gc.secrets.map SecretConfig.value).Nodup) :
    ((SecretGroupValidator.init gc g).1.validators).length =
      gc.secrets.length ∧
    ∀ sc ∈ gc.secrets,
      (((SecretGroupValidator.init gc g).1.validators).find?
        (hashpw sc.value (SecretGroupValidator.init gc g).1.salt)).isSome := by
  constructor
  · show ((SecretGroupValidator.loadSecrets g [] (g + 1) gc.secrets).1).length
      = gc.secrets.length
    rw [SecretGroupValidator.loadSecrets_length g gc.secrets [] (g + 1) hnd
      (fun sc _ => rfl)]
    simp
  · intro sc hsc
    obtain ⟨sv, hf, _⟩ := SecretGroupValidator.loadSecrets_find?_mem g
      gc.secrets [] (g + 1) sc.value
      (List.mem_map_of_mem SecretConfig.value hsc)
    show (((SecretGroupValidator.loadSecrets g [] (g + 1) gc.secrets).1).find?
      (hashpw sc.value g)).isSome
    rw [hf]
    rfl

/-- Witness for the amended C4: two members with distinct values yield a
mapping with exactly two entries. -/
theorem c4_amended_one_entry_per_member_witness :
    ((SecretGroupValidator.init
      { group := "doors"
        secrets := [{ secret := "front", value := "111" },
                    { secret := "back", value := "222" }] }
      0).1.validators).length = 2 :=
  (c4_amended_one_entry_per_member
    { group := "doors"
      secrets := [{ secret := "front", value := "111" },
                  { secret := "back", value := "222" }] }
    0 (by simp)).1

/-- C5: reloading any registry with a configuration yields exactly the
registry that constructing from that configuration alone (with the same
salt supply) yields; consequently a name only in the old configuration no
longer validates, and a secret of the new configuration validates with its
configured value. -/
theorem c5_reload_is_rebuild (old_config new_config : ServiceConfig)
    (g0 g1 : Nat) :
    (SecretValidatorService.init old_config g0).1.reload new_config g1 =
      SecretValidatorService.init new_config g1 ∧
    (∀ n v, n ∉ new_config.secrets.map SecretConfig.secret →
      n ∉ new_config.groups.map GroupConfig.group →
      ((SecretValidatorService.init old_config g0).1.reload new_config
        g1).1.validate n v = ValidateResult.FAILED_INVALID) ∧
    (∀ sc ∈ new_config.secrets,
      (new_config.secrets.map SecretConfig.secret).Nodup →
      ((SecretValidatorService.init old_config g0).1.reload new_config
        g1).1.validate sc.secret sc.value = ValidateResult.SUCCESS) := by
  have hre : (SecretValidatorService.init old_config g0).1.reload new_config
      g1 = SecretValidatorService.init new_config g1 := rfl
  refine ⟨hre, ?_, ?_⟩
  · intro n v hs hg
    rw [hre]
    exact SecretValidatorService.validate_init_not_mem new_config g1 n v hs hg
  · intro sc hsc hnd
    rw [hre]
    rw [SecretValidatorService.validate_init_secret_mem new_config g1 sc hsc
      hnd]
    simp

/-- Witness for C5: after replacing the secret old with the secret new, the
old name stops validating and the new one validates. -/
theorem c5_reload_is_rebuild_witness :
    ((SecretValidatorService.init
      { secrets := [{ secret := "old", value := "1" }], groups := [] }
      0).1.reload
      { secrets := [{ secret := "new", value := "2" }], groups := [] }
      0).1.validate "old" "1" = ValidateResult.FAILED_INVALID ∧
    ((SecretValidatorService.init
      { secrets := [{ secret := "old", value := "1" }], groups := [] }
      0).1.reload
      { secrets := [{ secret := "new", value := "2" }], groups := [] }
      0).1.validate "new" "2" = ValidateResult.SUCCESS := by
  have h := c5_reload_is_rebuild
    { secrets := [{ secret := "old", value := "1" }], groups := [] }
    { secrets := [{ secret := "new", value := "2" }], groups := [] } 0 0
  exact ⟨h.2.1 "old" "1" (by simp) (by simp),
    h.2.2 { secret := "new", value := "2" } (by simp) (by simp)⟩

/-- C6: the reload handler's only failure (a missing or invalid
replacement configuration) raises before the service is touched, so the
prior registry state is retained; every successful reload is exactly the
full rebuild from the supplied configuration, never a partially built
registry. -/
theorem c6_failed_reload_retains_state (s : SecretValidatorService)
    (c : Option ServiceConfig) (g : Nat) :
    (c = none → async_handle_reload_entry s c g =
      Except.error "A valid config could not be found") ∧
    (∀ p, async_handle_reload_entry s c g = Except.ok p →
      ∃ cfg, c = some cfg ∧ p = SecretValidatorService.init cfg g) := by
  constructor
  · intro hc
    subst hc
    rfl
  · intro p hp
    cases c with
    | none => simp [async_handle_reload_entry] at hp
    | some cfg =>
      refine ⟨cfg, rfl, ?_⟩
      have hp2 : (s.reload cfg g) = p := by
        simpa [async_handle_reload_entry] using hp
      rw [← hp2]
      rfl

/-- Witness for C6: with no valid replacement configuration the handler
reports the error and produces no new registry state. -/
theorem c6_failed_reload_retains_state_witness :
    async_handle_reload_entry
      { group_validators := [], individual_validators := [] } none 0 =
      Except.error "A valid config could not be found" :=
  (c6_failed_reload_retains_state
    { group_validators := [], individual_validators := [] } none 0).1 rfl

/-- C7: with full_response true the check-secret handler answers with the
structured full result; with full_response false or absent it answers with
the boolean that is true exactly when the validation result is SUCCESS. -/
theorem c7_check_secret_response_shape (s : SecretValidatorService)
    (n v : String) (fr : Option Bool) :
    (fr = some true → async_handle_check_secret s n v fr =
      CheckSecretResponse.full (s.validate n v)) ∧
    (fr ≠ some true → async_handle_check_secret s n v fr =
      CheckSecretResponse.flag
        (decide (s.validate n v = ValidateResult.SUCCESS))) ∧
    (fr ≠ some true →
      (async_handle_check_secret s n v fr = CheckSecretResponse.flag true ↔
        s.validate n v = ValidateResult.SUCCESS)) := by
  refine ⟨?_, ?_, ?_⟩
  · intro hfr
    subst hfr
    rfl
  · intro hfr
    cases fr with
    | none => rfl
    | some b =>
      cases b with
      | false => rfl
      | true => exact absurd rfl hfr
  · intro hfr
    have he : async_handle_check_secret s n v fr =
        CheckSecretResponse.flag
          (decide (s.validate n v = ValidateResult.SUCCESS)) := by
      cases fr with
      | none => rfl
      | some b =>
        cases b with
        | false => rfl
        | true => exact absurd rfl hfr
    rw [he]
    constructor
    · intro hh
      have hb : decide (s.validate n v = ValidateResult.SUCCESS) = true := by
        injection hh
      exact of_decide_eq_true hb
    · intro hh
      rw [decide_eq_true hh]

/-- Witness for C7 on the empty registry: the full response carries the
FAILED_INVALID result and the collapsed response carries false. -/
theorem c7_check_secret_response_shape_witness :
    async_handle_check_secret
      { group_validators := [], individual_validators := [] } "a" "b"
      (some true) =
      CheckSecretResponse.full
        (SecretValidatorService.validate
          { group_validators := [], individual_validators := [] } "a" "b") ∧
    async_handle_check_secret
      { group_validators := [], individual_validators := [] } "a" "b"
      none = CheckSecretResponse.flag false := by
  have h := c7_check_secret_response_shape
    { group_validators := [], individual_validators := [] } "a" "b"
  exact ⟨(h (some true)).1 rfl, (h none).2.1 (by simp)⟩

/-- C8: on every registry state (so in particular every reachable one) and
every input, validate only ever produces SUCCESS or FAILED_INVALID; the
two reserved enum variants are never produced. -/
theorem c8_reserved_results_never_produced (s : SecretValidatorService)
    (n v : String) :
    (s.validate n v = ValidateResult.SUCCESS ∨
      s.validate n v = ValidateResult.FAILED_INVALID) ∧
    s.validate n v ≠ ValidateResult.FAILED_ATTEMPTS_EXCEEDED ∧
    s.validate n v ≠ ValidateResult.FAILED_RATE_EXCEEDED := by
  have hsv : ∀ (sv : SecretValidator) (u : String),
      sv.validate u = ValidateResult.SUCCESS ∨
      sv.validate u = ValidateResult.FAILED_INVALID := by
    intro sv u
    unfold SecretValidator.validate
    split
    · exact Or.inl rfl
    · exact Or.inr rfl
  have hgv : ∀ (gv : SecretGroupValidator) (u : String),
      gv.validate u = ValidateResult.SUCCESS ∨
      gv.validate u = ValidateResult.FAILED_INVALID := by
    intro gv u
    unfold SecretGroupValidator.validate
    cases gv.validators.find? (hashpw u gv.salt) with
    | some sv => exact hsv sv u
    | none => exact Or.inr rfl
  have hmain : s.validate n v = ValidateResult.SUCCESS ∨
      s.validate n v = ValidateResult.FAILED_INVALID := by
    unfold SecretValidatorService.validate
    cases s.individual_validators.find? n with
    | some sv => exact hsv sv v
    | none =>
      cases s.group_validators.find? n with
      | some gv => exact hgv gv v
      | none => exact Or.inr rfl
  refine ⟨hmain, ?_, ?_⟩
  · rcases hmain with h | h <;> simp [h]
  · rcases hmain with h | h <;> simp [h]

/-- C9: validate is a pure read: in state-passing form the post-call state
is the unchanged receiver, both maps (hence every validator's salt and
stored hash) are untouched, and a repeated call on the resulting state
returns the same result. -/
theorem c9_validate_is_pure_read (s : SecretValidatorService)
    (n v : String) :
    s.validateFull n v = (s.validate n v, s) ∧
    (s.validateFull n v).2 = s ∧
    (s.validateFull n v).2.individual_validators = s.individual_validators ∧
    (s.validateFull n v).2.group_validators = s.group_validators ∧
    ((s.validateFull n v).2.validateFull n v).1 = (s.validateFull n v).1 :=
  ⟨rfl, rfl, rfl, rfl, rfl⟩

/-- C10 (implicit behaviour): construction is total and keeps only the
last-listed entry for a repeated individual name or a repeated group name:
validation at the duplicated name consults only the last occurrence's
value(s), so an earlier occurrence's differing value no longer validates. -/
theorem c10_duplicate_names_last_wins (cfg : ServiceConfig) (g : Nat) :
    (∀ (l r : List SecretConfig) (n v1 v2 : String),
      cfg.secrets = l ++ { secret := n, value := v2 } :: r →
      ({ secret := n, value := v1 } : SecretConfig) ∈ l →
      n ∉ r.map SecretConfig.secret →
      ∀ u, (SecretValidatorService.init cfg g).1.validate n u =
        if v2 = u then ValidateResult.SUCCESS
        else ValidateResult.FAILED_INVALID) ∧
    (∀ (lg rg : List GroupConfig) (gc : GroupConfig),
      cfg.groups = lg ++ gc :: rg →
      (∃ gc2 ∈ lg, gc2.group = gc.group) →
      gc.group ∉ rg.map GroupConfig.group →
      gc.group ∉ cfg.secrets.map SecretConfig.secret →
      ∀ u, (SecretValidatorService.init cfg g).1.validate gc.group u =
        if u ∈ gc.secrets.map SecretConfig.value then ValidateResult.SUCCESS
        else ValidateResult.FAILED_INVALID) := by
  constructor
  · intro l r n v1 v2 hcfg _ hr u
    exact SecretValidatorService.validate_init_secret_last cfg g l r
      { secret := n, value := v2 } hcfg hr u
  · intro lg rg gc hcfg _ hr hs u
    exact SecretValidatorService.validate_init_group_last cfg g lg rg gc
      hcfg hr hs u

/-- Witness for C10: with dup listed twice (values one then two) and the
group gd listed twice (members aaa then bbb), only the later entries
decide validation. -/
theorem c10_duplicate_names_last_wins_witness :
    (SecretValidatorService.init
      { secrets := [{ secret := "dup", value := "one" },
                    { secret := "dup", value := "two" }]
        groups := [{ group := "gd"
                     secrets := [{ secret := "m1", value := "aaa" }] },
                   { group := "gd"
                     secrets := [{ secret := "m2", value := "bbb" }] }] }
      0).1.validate "dup" "two" = ValidateResult.SUCCESS ∧
    (SecretValidatorService.init
      { secrets := [{ secret := "dup", value := "one" },
                    { secret := "dup", value := "two" }]
        groups := [{ group := "gd"
                     secrets := [{ secret := "m1", value := "aaa" }] },
                   { group := "gd"
                     secrets := [{ secret := "m2", value := "bbb" }] }] }
      0).1.validate "dup" "one" = ValidateResult.FAILED_INVALID ∧
    (SecretValidatorService.init
      { secrets := [{ secret := "dup", value := "one" },
                    { secret := "dup", value := "two" }]
        groups := [{ group := "gd"
                     secrets := [{ secret := "m1", value := "aaa" }] },
                   { group := "gd"
                     secrets := [{ secret := "m2", value := "bbb" }] }] }
      0).1.validate "gd" "bbb" = ValidateResult.SUCCESS ∧
    (SecretValidatorService.init
      { secrets := [{ secret := "dup", value := "one" },
                    { secret := "dup", value := "two" }]
        groups := [{ group := "gd"
                     secrets := [{ secret := "m1", value := "aaa" }] },
                   { group := "gd"
                     secrets := [{ secret := "m2", value := "bbb" }] }] }
      0).1.validate "gd" "aaa" = ValidateResult.FAILED_INVALID := by
  have h := c10_duplicate_names_last_wins
    { secrets := [{ secret := "dup", value := "one" },
                  { secret := "dup", value := "two" }]
      groups := [{ group := "gd"
                   secrets := [{ secret := "m1", value := "aaa" }] },
                 { group := "gd"
                   secrets := [{ secret := "m2", value := "bbb" }] }] } 0
  have h1 := h.1 [{ secret := "dup", value := "one" }] [] "dup" "one" "two"
    rfl (by simp) (by simp)
  have h2 := h.2 [{ group := "gd"
                    secrets := [{ secret := "m1", value := "aaa" }] }] []
    { group := "gd", secrets := [{ secret := "m2", value := "bbb" }] }
    rfl ⟨{ group := "gd", secrets := [{ secret := "m1", value := "aaa" }] },
      by simp, rfl⟩ (by simp) (by simp)
  refine ⟨?_, ?_, ?_, ?_⟩
  · rw [h1 "two"]
    simp
  · rw [h1 "one"]
    simp
  · rw [h2 "bbb"]
    simp
  · rw [h2 "aaa"]
    simp

end SecretService
